import Mathlib

/-!
Verification development for the team-formation / join-request subsystem of a
competition platform (Convex backend helpers in `convex/lib/team.ts`).

The document store is embedded shallowly: each table is a list of rows in
insertion order, `withIndex`/`filter` queries become `List.filter`,
`find`/`first` become `List.find?`/`List.head?`, `db.get` becomes a lookup by
`_id`, and a thrown `ConvexError` becomes the `Except.error` branch.  A Convex
mutation runs as a single serializable transaction, so a run that throws
commits nothing; `runMutation` below makes that commit-or-rollback boundary
explicit.
-/

namespace VRA

/-- Row of the `teams` table: a team belongs to exactly one competition. -/
structure Team where
  tid : Nat
  competition : Nat
deriving DecidableEq, Repr

/-- Row of the `participants` table: join row between a user and a team. -/
structure Participant where
  pid : Nat
  user : Nat
  team : Nat
deriving DecidableEq, Repr

/-- Row of the `join_requests` table: mutual-consent intent for `user` to move
onto `team`. -/
structure JoinRequest where
  jid : Nat
  team : Nat
  user : Nat
  userConsent : Bool
  teamConsent : Bool
deriving DecidableEq, Repr

/-- Row of the `join_messages` table: one message of a cross-chat thread. -/
structure JoinMessage where
  mid : Nat
  join_request : Nat
  sender : Nat
  message : String
deriving DecidableEq, Repr

/-- The document store: one list of rows per table, in insertion order, plus
the id counter used for fresh document ids.  User and competition documents
are identified with their ids, since no other field of theirs is read by this
subsystem. -/
structure DB where
  users : List Nat
  competitions : List Nat
  teams : List Team
  participants : List Participant
  join_requests : List JoinRequest
  join_messages : List JoinMessage
  nextId : Nat
deriving DecidableEq, Repr

/-- Errors thrown by the subsystem (`ConvexError` with a plain string message,
or with a `{code, message}` payload). -/
inductive Err where
  | convexStr : String → Err
  | convexCode : Nat → String → Err
deriving DecidableEq, Repr

/-- The `RequestValidity` enum from `lib/shared`. -/
inductive RequestValidity where
  | VALID
  | BACKWARDS
  | FULL
  | COMMITTED
  | ACCEPTED
  | INVITED
  | REQUESTED
deriving DecidableEq, Repr

/-- Modelled from the spec: the Identity Resolver resolves an opaque
authentication context to a canonical user record and fails if absent
(spec section 2); the source of `verifyUser` (`convex/user.ts`) is not under
`src/`.  The authentication context is modelled as the optional id of the
resolved user. -/
def verifyUser (auth : Option Nat) : Except Err Nat :=
  match auth with
  | none => .error (.convexStr "Unauthenticated")
  | some u => .ok u

/-- Modelled from the spec: `convertToUserDocumentArray` (from
`convex/lib/helpers`, not under `src/`) batch-resolves a list of user ids to
the corresponding user documents, preserving order (spec section 4.4); an id
whose user document no longer exists yields no entry. -/
def convertToUserDocumentArray (db : DB) (ids : List Nat) : List Nat :=
  ids.filterMap (fun i => if db.users.contains i then some i else none)

/-- One entry of `listOwnParticipations`: the participant row together with
its resolved team and competition documents. -/
structure ParticipationView where
  participation : Participant
  team : Team
  competition : Nat
deriving DecidableEq, Repr

/-- Embedding of `listOwnParticipations`: scans the user's participant rows
and resolves each to its team and competition, silently dropping entries
whose team or competition document no longer exists. -/
def listOwnParticipations (db : DB) (userId : Nat) : List ParticipationView :=
  let participations := db.participants.filter (fun p => p.user == userId)
  (participations.map (fun item =>
    match db.teams.find? (fun t => t.tid == item.team) with
    | none => []
    | some team =>
      if db.competitions.contains team.competition then
        [{ participation := item, team := team, competition := team.competition }]
      else [])).flatten

/-- The view assembled by `verifyTeam`: team attributes, resolved member user
documents, and the team's outstanding join requests. -/
structure TeamView where
  tid : Nat
  competition : Nat
  members : List Nat
  joinRequests : List JoinRequest
deriving DecidableEq, Repr

/-- Embedding of `verifyTeam`: fails with a 404 `ConvexError` when the team
document does not exist, otherwise assembles the team view. -/
def verifyTeam (db : DB) (teamId : Nat) : Except Err TeamView :=
  match db.teams.find? (fun t => t.tid == teamId) with
  | none => .error (.convexCode 404 "The team does not exist")
  | some team =>
    let memberRows := db.participants.filter (fun p => p.team == teamId)
    let members := convertToUserDocumentArray db (memberRows.map (fun p => p.user))
    let joinRequests := db.join_requests.filter (fun j => j.team == teamId)
    .ok { tid := team.tid, competition := team.competition,
          members := members, joinRequests := joinRequests }

/-- The view returned by `findTeamOfUser` when the user has a team: the spread
of the `verifyTeam` view plus the user's own membership row. -/
structure TeamOfUserView where
  tid : Nat
  competition : Nat
  members : List Nat
  joinRequests : List JoinRequest
  userMembership : Participant
deriving DecidableEq, Repr

/-- Embedding of `findTeamOfUser`: picks the user's participation in the given
competition out of `listOwnParticipations` (returning `none` for the source's
`false` when there is none) and delegates to `verifyTeam` for the found team
id. -/
def findTeamOfUser (db : DB) (userId : Nat) (competition : Nat) :
    Except Err (Option TeamOfUserView) :=
  match (listOwnParticipations db userId).find?
      (fun item => item.competition == competition) with
  | none => .ok none
  | some currentParticipation =>
    match verifyTeam db currentParticipation.team.tid with
    | .error e => .error e
    | .ok tv =>
      .ok (some { tid := tv.tid, competition := tv.competition,
                  members := tv.members, joinRequests := tv.joinRequests,
                  userMembership := currentParticipation.participation })

/-- Embedding of `validateTeamJoinRequest`: classifies a potential join of
`joiner` to `inviterTeam`, throwing when the joiner has no team in the
inviting team's competition. -/
def validateTeamJoinRequest (db : DB) (inviterTeam : Team) (joiner : Nat) :
    Except Err RequestValidity :=
  let inviterTeamParticipants :=
    db.participants.filter (fun p => p.team == inviterTeam.tid)
  if inviterTeamParticipants.any (fun item => item.user == joiner) then
    .ok .BACKWARDS
  else if inviterTeamParticipants.length ≥ 4 then
    .ok .FULL
  else
    match findTeamOfUser db joiner inviterTeam.competition with
    | .error e => .error e
    | .ok none => .error (.convexStr "The user is not in the competition")
    | .ok (some joinerTeam) =>
      if joinerTeam.members.length > 1 then
        .ok .COMMITTED
      else
        let invitingTeamJoinRequests :=
          db.join_requests.filter (fun j => j.team == inviterTeam.tid)
        match invitingTeamJoinRequests.find? (fun item => item.user == joiner) with
        | none => .ok .VALID
        | some joinRequest =>
          if joinRequest.teamConsent && joinRequest.userConsent then
            .ok .ACCEPTED
          else if joinRequest.teamConsent && !joinRequest.userConsent then
            .ok .INVITED
          else if !joinRequest.teamConsent && joinRequest.userConsent then
            .ok .REQUESTED
          else
            .ok .VALID

/-- Embedding of `recordJoinRequest`: verifies the caller, inserts one join
request with `userConsent = !teamConsent`, inserts the pitch as the opening
cross-chat message, and returns the new join request's id together with the
updated store. -/
def recordJoinRequest (db : DB) (auth : Option Nat) (inviterTeamId : Nat)
    (joinerId : Nat) (pitch : String) (teamConsent : Bool) :
    Except Err (Nat × DB) :=
  match verifyUser auth with
  | .error e => .error e
  | .ok sender =>
    let newJoinRequest := db.nextId
    let db1 : DB :=
      { db with
        join_requests := db.join_requests ++
          [{ jid := newJoinRequest, team := inviterTeamId, user := joinerId,
             userConsent := !teamConsent, teamConsent := teamConsent }],
        nextId := db.nextId + 1 }
    let db2 : DB :=
      { db1 with
        join_messages := db1.join_messages ++
          [{ mid := db1.nextId, join_request := newJoinRequest,
             sender := sender, message := pitch }],
        nextId := db1.nextId + 1 }
    .ok (newJoinRequest, db2)

/-- Embedding of `addUserToTeam`: deletes the pair's join request if present,
resolves the user's current team in the inviting team's competition (throwing
if there is none), reassigns the user's participant row to the inviting team,
and deletes the prior team when the user was its only member. -/
def addUserToTeam (db : DB) (user : Nat) (invitingTeam : Team) :
    Except Err DB :=
  let userToTeamJoinRequest :=
    (db.join_requests.filter (fun j => j.team == invitingTeam.tid)).find?
      (fun j => j.user == user)
  let db1 : DB :=
    match userToTeamJoinRequest with
    | none => db
    | some jr =>
      { db with join_requests :=
          db.join_requests.filter (fun j => !(j.jid == jr.jid)) }
  match findTeamOfUser db1 user invitingTeam.competition with
  | .error e => .error e
  | .ok none => .error (.convexStr "The user is not in the competition")
  | .ok (some teamOfJoiner) =>
    let participations :=
      db1.participants.filter (fun p => p.team == teamOfJoiner.tid)
    match participations.find? (fun item => item.user == user) with
    | none => .error (.convexStr "An internal server error occurred")
    | some joinerParticipation =>
      let db2 : DB :=
        { db1 with participants :=
            db1.participants.map (fun p =>
              if p.pid == joinerParticipation.pid then
                { p with team := invitingTeam.tid }
              else p) }
      if teamOfJoiner.members.length == 1 then
        .ok { db2 with teams :=
                db2.teams.filter (fun t => !(t.tid == teamOfJoiner.tid)) }
      else
        .ok db2

/-- Embedding of `validateCrossChatParticipation`: resolves the join request's
team via `verifyTeam` (propagating its 404), then tests whether the viewer is
a current team member or the joining user. -/
def validateCrossChatParticipation (db : DB) (joinRequestInfo : JoinRequest)
    (viewer : Nat) : Except Err Bool :=
  match verifyTeam db joinRequestInfo.team with
  | .error e => .error e
  | .ok invitingTeam =>
    .ok (invitingTeam.members.any (fun member => member == viewer) ||
      joinRequestInfo.user == viewer)

/-- The join requests currently standing between a team and a user — the
observable that invariant I3 bounds by one. -/
def pairRequests (db : DB) (teamId userId : Nat) : List JoinRequest :=
  db.join_requests.filter (fun j => j.team == teamId && j.user == userId)

/-- Runs a mutation body as the single serializable transaction the platform
gives it (spec section 5): a body that returns commits its final store, a
body that throws commits nothing and the caller keeps the starting store
together with the reported error. -/
def runMutation (m : DB → Except Err DB) (db : DB) : DB × Option Err :=
  match m db with
  | .ok db2 => (db2, none)
  | .error e => (db, some e)

/-- Postcondition of a completed `addUserToTeam db u T` run ending in `db2`:
no join request remains between the pair, the user's participant row points at
the inviting team, and the user's prior team row (the team `findTeamOfUser`
resolved before the run) is gone exactly when the user was its only member,
while every other user's participant row survives unchanged. -/
def AddPost (db db2 : DB) (u : Nat) (T : Team) : Prop :=
  pairRequests db2 T.tid u = []
  ∧ (∃ p ∈ db2.participants, p.user = u ∧ p.team = T.tid)
  ∧ (∀ w, findTeamOfUser db u T.competition = .ok (some w) →
      ((∀ t ∈ db2.teams, t.tid ≠ w.tid) ↔
        (db.participants.filter (fun p => p.team == w.tid)).length = 1))
  ∧ (∀ p ∈ db.participants, p.user ≠ u → p ∈ db2.participants)

/-- Concrete store: competition 10 holds team 100 (one member, user 2) and
team 101 (one member, user 1). -/
def dbA : DB :=
  { users := [1, 2], competitions := [10],
    teams := [⟨100, 10⟩, ⟨101, 10⟩],
    participants := [⟨200, 2, 100⟩, ⟨201, 1, 101⟩],
    join_requests := [], join_messages := [], nextId := 300 }

/-- The store produced by `addUserToTeam dbA 1 ⟨100, 10⟩`: user 1 moved onto
team 100 and the emptied team 101 was deleted. -/
def dbA2 : DB :=
  { users := [1, 2], competitions := [10],
    teams := [⟨100, 10⟩],
    participants := [⟨200, 2, 100⟩, ⟨201, 1, 100⟩],
    join_requests := [], join_messages := [], nextId := 300 }

/-- The team view `findTeamOfUser dbA 1 10` resolves: user 1's solo team 101. -/
def tjA : TeamOfUserView :=
  { tid := 101, competition := 10, members := [1], joinRequests := [],
    userMembership := ⟨201, 1, 101⟩ }

/-- Concrete store: team 100 already has four members (users 2, 3, 4, 5). -/
def dbFull : DB :=
  { users := [1, 2, 3, 4, 5], competitions := [10],
    teams := [⟨100, 10⟩, ⟨101, 10⟩],
    participants := [⟨200, 2, 100⟩, ⟨210, 3, 100⟩, ⟨220, 4, 100⟩,
                     ⟨230, 5, 100⟩, ⟨201, 1, 101⟩],
    join_requests := [⟨300, 100, 1, true, true⟩],
    join_messages := [], nextId := 400 }

/-- Concrete store: user 1's only participant row references team 999, which
no longer exists, so user 1 has no resolvable team in competition 10. -/
def dbDangling : DB :=
  { users := [1, 2], competitions := [10],
    teams := [⟨100, 10⟩],
    participants := [⟨200, 2, 100⟩, ⟨201, 1, 999⟩],
    join_requests := [], join_messages := [], nextId := 300 }

/-- Concrete store for the cross-chat guard: team 100 has the single current
member user 2, and join request 300 proposes moving user 1 onto team 100. -/
def dbW8 : DB :=
  { users := [1, 2, 3], competitions := [10],
    teams := [⟨100, 10⟩],
    participants := [⟨200, 2, 100⟩],
    join_requests := [⟨300, 100, 1, false, true⟩],
    join_messages := [], nextId := 400 }

/-- The join request row of `dbW8`. -/
def jrW8 : JoinRequest := ⟨300, 100, 1, false, true⟩

/-- Concrete store for the failing `addUserToTeam` run: user 5 has no
participant row at all, yet a fully consented join request between team 100
and user 5 is on file. -/
def dbW3 : DB :=
  { users := [2, 5], competitions := [10],
    teams := [⟨100, 10⟩],
    participants := [⟨200, 2, 100⟩],
    join_requests := [⟨300, 100, 5, true, true⟩],
    join_messages := [], nextId := 400 }

/-- Concrete store for the section-8 scenario: user 1 solo-owns team 101,
team 100 has two members (users 2 and 3), and the invite row 300
(`teamConsent = true, userConsent = false`) is already on file. -/
def dbC4 : DB :=
  { users := [1, 2, 3], competitions := [10],
    teams := [⟨100, 10⟩, ⟨101, 10⟩],
    participants := [⟨200, 2, 100⟩, ⟨201, 3, 100⟩, ⟨202, 1, 101⟩],
    join_requests := [⟨300, 100, 1, false, true⟩],
    join_messages := [], nextId := 400 }

/-- The store produced by `recordJoinRequest dbC4 (some 1) 100 1 _ false`:
the invite row 300 is untouched and a second pair row 400 has appeared. -/
def dbC4b : DB :=
  { users := [1, 2, 3], competitions := [10],
    teams := [⟨100, 10⟩, ⟨101, 10⟩],
    participants := [⟨200, 2, 100⟩, ⟨201, 3, 100⟩, ⟨202, 1, 101⟩],
    join_requests := [⟨300, 100, 1, false, true⟩, ⟨400, 100, 1, true, false⟩],
    join_messages := [⟨401, 400, 1, "may I join"⟩], nextId := 402 }

/-- The fields of a team view that do not mention the team's join requests. -/
def stripTV (tv : TeamView) : Nat × Nat × List Nat :=
  (tv.tid, tv.competition, tv.members)

/-- The fields of a `findTeamOfUser` view that do not mention join requests. -/
def stripW (w : TeamOfUserView) : Nat × Nat × List Nat × Participant :=
  (w.tid, w.competition, w.members, w.userMembership)

/-- Witness store for C9: team 101 in competition 10 has the two members 1
and 3, team 100 has the single member 2. -/
def dbC9 : DB :=
  { users := [1, 2, 3], competitions := [10],
    teams := [⟨100, 10⟩, ⟨101, 10⟩],
    participants := [⟨200, 2, 100⟩, ⟨201, 1, 101⟩, ⟨202, 3, 101⟩],
    join_requests := [], join_messages := [], nextId := 300 }

/-- The team view `findTeamOfUser dbC9 1 10` resolves: the two-member team
101. -/
def tjC9 : TeamOfUserView :=
  { tid := 101, competition := 10, members := [1, 3], joinRequests := [],
    userMembership := ⟨201, 1, 101⟩ }

/-- The first step of `addUserToTeam` in isolation: delete the first join
request standing between the inviting team and the user, if there is one. -/
def deleteJoinRequestStep (db : DB) (user : Nat) (invitingTeam : Team) : DB :=
  match (db.join_requests.filter (fun j => j.team == invitingTeam.tid)).find?
      (fun j => j.user == user) with
  | none => db
  | some jr =>
    { db with join_requests :=
        db.join_requests.filter (fun j => !(j.jid == jr.jid)) }

/-- The remaining steps of `addUserToTeam`, run against the store left by
`deleteJoinRequestStep`: resolve the user's team, reassign the participant
row, and conditionally delete the emptied prior team. -/
def addUserToTeamTail (db1 : DB) (user : Nat) (invitingTeam : Team) :
    Except Err DB :=
  match findTeamOfUser db1 user invitingTeam.competition with
  | .error e => .error e
  | .ok none => .error (.convexStr "The user is not in the competition")
  | .ok (some teamOfJoiner) =>
    match (db1.participants.filter
        (fun p => p.team == teamOfJoiner.tid)).find?
        (fun item => item.user == user) with
    | none => .error (.convexStr "An internal server error occurred")
    | some joinerParticipation =>
      let db2 : DB :=
        { db1 with participants :=
            db1.participants.map (fun p =>
              if p.pid == joinerParticipation.pid then
                { p with team := invitingTeam.tid }
              else p) }
      if teamOfJoiner.members.length == 1 then
        .ok { db2 with teams :=
                db2.teams.filter (fun t => !(t.tid == teamOfJoiner.tid)) }
      else
        .ok db2

/-- Finding in a filtered list is taking the head of the doubly filtered
list. -/
theorem filter_find?_eq_head? {α : Type} (l : List α) (p q : α → Bool) :
    (l.filter p).find? q = (l.filter (fun a => p a && q a)).head? := by
  induction l with
  | nil => rfl
  | cons a l ih =>
    cases hp : p a <;> cases hq : q a <;>
      simp [List.filter_cons, hp, hq, List.find?_cons, ih]

/-- A list of length at most one that has a member is that singleton. -/
theorem eq_singleton_of_length_le_one {α : Type} {l : List α} {a : α}
    (h1 : l.length ≤ 1) (h2 : a ∈ l) : l = [a] := by
  cases l with
  | nil => cases h2
  | cons x xs =>
    cases xs with
    | nil => simp only [List.mem_singleton] at h2; rw [h2]
    | cons y ys => simp at h1

/-- The query the mutator runs to locate the pair's join request returns the
head of `pairRequests`. -/
theorem join_find_eq_pair_head (db : DB) (teamId userId : Nat) :
    (db.join_requests.filter (fun j => j.team == teamId)).find?
        (fun j => j.user == userId) =
      (pairRequests db teamId userId).head? := by
  unfold pairRequests
  rw [filter_find?_eq_head?]

/-- Membership in the resolved user-document array: the id was requested and
its user document exists. -/
theorem mem_convertToUserDocumentArray {db : DB} {ids : List Nat} {x : Nat} :
    x ∈ convertToUserDocumentArray db ids ↔ x ∈ ids ∧ x ∈ db.users := by
  unfold convertToUserDocumentArray
  simp only [List.mem_filterMap]
  constructor
  · rintro ⟨a, ha, hfa⟩
    by_cases hc : db.users.contains a
    · rw [if_pos hc] at hfa
      obtain rfl := Option.some.inj hfa
      exact ⟨ha, by simpa using hc⟩
    · rw [if_neg hc] at hfa
      cases hfa
  · rintro ⟨ha, hu⟩
    exact ⟨x, ha, by rw [if_pos (by simpa using hu)]⟩

/-- When every requested user document exists the resolved array has one
entry per requested id. -/
theorem length_convertToUserDocumentArray (db : DB) (ids : List Nat)
    (h : ∀ i ∈ ids, i ∈ db.users) :
    (convertToUserDocumentArray db ids).length = ids.length := by
  unfold convertToUserDocumentArray
  simp
  exact h

/-- Every entry of `listOwnParticipations` carries one of the user's own
participant rows and a team row that still exists. -/
theorem mem_listOwnParticipations {db : DB} {u : Nat} {w : ParticipationView}
    (hw : w ∈ listOwnParticipations db u) :
    w.participation ∈ db.participants ∧ w.participation.user = u ∧
      w.team ∈ db.teams := by
  unfold listOwnParticipations at hw
  simp only [List.mem_flatten, List.mem_map] at hw
  obtain ⟨l, ⟨item, hitem, rfl⟩, hwl⟩ := hw
  rw [List.mem_filter] at hitem
  cases hf : db.teams.find? (fun t => t.tid == item.team) with
  | none => rw [hf] at hwl; cases hwl
  | some team =>
    rw [hf] at hwl
    simp at hwl
    obtain ⟨hcomp, rfl⟩ := hwl
    exact ⟨hitem.1, by simpa using hitem.2, List.mem_of_find?_eq_some hf⟩

/-- A team id that appears among the team rows makes `verifyTeam` succeed. -/
theorem verifyTeam_isOk_of_mem {db : DB} {teamId : Nat}
    (h : ∃ t ∈ db.teams, t.tid = teamId) :
    ∃ tv, verifyTeam db teamId = .ok tv := by
  obtain ⟨t, htm, htid⟩ := h
  unfold verifyTeam
  cases hf : db.teams.find? (fun x => x.tid == teamId) with
  | none =>
    exfalso
    rw [List.find?_eq_none] at hf
    exact hf t htm (by simp [htid])
  | some team => exact ⟨_, rfl⟩

/-- What a successful `verifyTeam` reports: the requested id, an existing
team row, and the members resolved from the team's participant rows. -/
theorem verifyTeam_ok_spec {db : DB} {teamId : Nat} {tv : TeamView}
    (h : verifyTeam db teamId = .ok tv) :
    tv.tid = teamId
    ∧ (∃ t ∈ db.teams, t.tid = teamId)
    ∧ tv.members = convertToUserDocumentArray db
        ((db.participants.filter (fun p => p.team == teamId)).map
          (fun p => p.user)) := by
  unfold verifyTeam at h
  cases hf : db.teams.find? (fun t => t.tid == teamId) with
  | none => rw [hf] at h; cases h
  | some team =>
    rw [hf] at h
    simp only [Except.ok.injEq] at h
    have ht : team.tid = teamId := by simpa using List.find?_some hf
    subst h
    exact ⟨ht, ⟨team, List.mem_of_find?_eq_some hf, ht⟩, rfl⟩

/-- When the team does not exist `verifyTeam` throws the 404 error. -/
theorem verifyTeam_error {db : DB} {teamId : Nat}
    (h : ∀ t ∈ db.teams, t.tid ≠ teamId) :
    verifyTeam db teamId = .error (.convexCode 404 "The team does not exist") := by
  unfold verifyTeam
  have hf : db.teams.find? (fun t => t.tid == teamId) = none := by
    rw [List.find?_eq_none]
    intro t ht
    simpa using h t ht
  rw [hf]

/-- `findTeamOfUser` never throws: the team id it resolves comes from a team
row that was just read. -/
theorem findTeamOfUser_isOk (db : DB) (u c : Nat) :
    ∃ r, findTeamOfUser db u c = .ok r := by
  cases hf : (listOwnParticipations db u).find?
      (fun item => item.competition == c) with
  | none => exact ⟨none, by simp only [findTeamOfUser, hf]⟩
  | some cp =>
    have hmem := mem_listOwnParticipations (List.mem_of_find?_eq_some hf)
    obtain ⟨tv, htv⟩ := verifyTeam_isOk_of_mem ⟨cp.team, hmem.2.2, rfl⟩
    exact ⟨some { tid := tv.tid, competition := tv.competition,
                  members := tv.members, joinRequests := tv.joinRequests,
                  userMembership := cp.participation },
      by simp only [findTeamOfUser, hf, htv]⟩

/-- `findTeamOfUser` reports no team exactly when no entry of the user's
resolved participations lies in the competition. -/
theorem findTeamOfUser_none_iff (db : DB) (u c : Nat) :
    findTeamOfUser db u c = .ok none ↔
      (listOwnParticipations db u).find? (fun item => item.competition == c) =
        none := by
  cases hf : (listOwnParticipations db u).find?
      (fun item => item.competition == c) with
  | none => simp [findTeamOfUser, hf]
  | some cp =>
    have hmem := mem_listOwnParticipations (List.mem_of_find?_eq_some hf)
    obtain ⟨tv, htv⟩ := verifyTeam_isOk_of_mem ⟨cp.team, hmem.2.2, rfl⟩
    simp [findTeamOfUser, hf, htv]

/-- What a successful `findTeamOfUser` reports: an existing team row with the
returned id, members resolved from that team's participant rows, and the
user's own membership row. -/
theorem findTeamOfUser_some_spec {db : DB} {u c : Nat} {w : TeamOfUserView}
    (h : findTeamOfUser db u c = .ok (some w)) :
    (∃ t ∈ db.teams, t.tid = w.tid)
    ∧ w.members = convertToUserDocumentArray db
        ((db.participants.filter (fun p => p.team == w.tid)).map
          (fun p => p.user))
    ∧ w.userMembership ∈ db.participants ∧ w.userMembership.user = u := by
  cases hf : (listOwnParticipations db u).find?
      (fun item => item.competition == c) with
  | none => simp [findTeamOfUser, hf] at h
  | some cp =>
    simp only [findTeamOfUser, hf] at h
    cases hv : verifyTeam db cp.team.tid with
    | error e => simp [hv] at h
    | ok tv =>
      simp only [hv, Except.ok.injEq, Option.some.injEq] at h
      obtain ⟨htid, hex, hmembers⟩ := verifyTeam_ok_spec hv
      have hcp := mem_listOwnParticipations (List.mem_of_find?_eq_some hf)
      subst h
      exact ⟨by simpa [htid] using hex, by simpa [htid] using hmembers,
        hcp.1, hcp.2.1⟩

/-- `verifyTeam` reads the `join_requests` table only to fill the
`joinRequests` field: two stores agreeing on users, teams and participants
produce the same stripped view. -/
theorem verifyTeam_strip (db db2 : DB) (h1 : db2.users = db.users)
    (h2 : db2.teams = db.teams) (h3 : db2.participants = db.participants)
    (teamId : Nat) :
    (verifyTeam db2 teamId).map stripTV = (verifyTeam db teamId).map stripTV := by
  unfold verifyTeam convertToUserDocumentArray
  rw [h1, h2, h3]
  cases db.teams.find? (fun t => t.tid == teamId) <;> simp [Except.map, stripTV]

/-- `listOwnParticipations` never reads the `join_requests` table. -/
theorem listOwnParticipations_agnostic (db db2 : DB)
    (h0 : db2.competitions = db.competitions) (h2 : db2.teams = db.teams)
    (h3 : db2.participants = db.participants) (u : Nat) :
    listOwnParticipations db2 u = listOwnParticipations db u := by
  unfold listOwnParticipations
  rw [h0, h2, h3]

/-- `findTeamOfUser` reads the `join_requests` table only to fill the
`joinRequests` field of its view. -/
theorem findTeamOfUser_strip (db db2 : DB)
    (h0 : db2.competitions = db.competitions) (h1 : db2.users = db.users)
    (h2 : db2.teams = db.teams) (h3 : db2.participants = db.participants)
    (u c : Nat) :
    (findTeamOfUser db2 u c).map (Option.map stripW) =
      (findTeamOfUser db u c).map (Option.map stripW) := by
  unfold findTeamOfUser
  rw [listOwnParticipations_agnostic db db2 h0 h2 h3]
  cases hf : (listOwnParticipations db u).find?
      (fun item => item.competition == c) with
  | none => simp [Except.map]
  | some cp =>
    have hvt := verifyTeam_strip db db2 h1 h2 h3 cp.team.tid
    cases hv2 : verifyTeam db2 cp.team.tid <;> cases hv : verifyTeam db cp.team.tid <;>
        rw [hv2, hv] at hvt <;> simp [Except.map, stripTV, stripW] at hvt <;>
        simp [hv2, hv, Except.map, stripTV, stripW, hvt]

/-- Transfers a successful team resolution to a store that differs only in
its `join_requests` table. -/
theorem findTeamOfUser_transfer (db db2 : DB)
    (h0 : db2.competitions = db.competitions) (h1 : db2.users = db.users)
    (h2 : db2.teams = db.teams) (h3 : db2.participants = db.participants)
    {u c : Nat} {w : TeamOfUserView}
    (h : findTeamOfUser db u c = .ok (some w)) :
    ∃ w2, findTeamOfUser db2 u c = .ok (some w2) ∧ stripW w2 = stripW w := by
  have hs := findTeamOfUser_strip db db2 h0 h1 h2 h3 u c
  rw [h] at hs
  cases hx : findTeamOfUser db2 u c with
  | error e => rw [hx] at hs; simp [Except.map] at hs
  | ok o =>
    rw [hx] at hs
    cases o with
    | none => simp [Except.map] at hs
    | some w2 =>
      refine ⟨w2, rfl, ?_⟩
      simpa [Except.map] using hs

/-- Transfers the no-team outcome to a store that differs only in its
`join_requests` table. -/
theorem findTeamOfUser_none_transfer (db db2 : DB)
    (h0 : db2.competitions = db.competitions) (h1 : db2.users = db.users)
    (h2 : db2.teams = db.teams) (h3 : db2.participants = db.participants)
    {u c : Nat} (h : findTeamOfUser db u c = .ok none) :
    findTeamOfUser db2 u c = .ok none := by
  have hs := findTeamOfUser_strip db db2 h0 h1 h2 h3 u c
  rw [h] at hs
  cases hx : findTeamOfUser db2 u c with
  | error e => rw [hx] at hs; simp [Except.map] at hs
  | ok o =>
    rw [hx] at hs
    cases o with
    | none => rfl
    | some w2 => simp [Except.map] at hs

/-- A joiner who is on no participant row of the inviting team fails the
validator's membership scan. -/
theorem not_member_any_false {db : DB} {T : Team} {u : Nat}
    (hmem : ∀ p ∈ db.participants, p.team = T.tid → p.user ≠ u) :
    (db.participants.filter (fun p => p.team == T.tid)).any
      (fun item => item.user == u) = false := by
  rw [List.any_eq_false]
  intro p hp
  rw [List.mem_filter] at hp
  simpa using hmem p hp.1 (by simpa using hp.2)

/-- Reduction of the validator past its first three checks: for a non-member
joiner of a team below the cap whose own team resolves, the answer depends
only on the joiner's own roster size and the first join request standing
between the pair. -/
theorem validate_reduces (db : DB) (T : Team) (u : Nat) (tj : TeamOfUserView)
    (hmem : ∀ p ∈ db.participants, p.team = T.tid → p.user ≠ u)
    (hsmall : (db.participants.filter (fun p => p.team == T.tid)).length < 4)
    (hteam : findTeamOfUser db u T.competition = .ok (some tj)) :
    validateTeamJoinRequest db T u =
      if tj.members.length > 1 then .ok .COMMITTED
      else
        match (pairRequests db T.tid u).head? with
        | none => .ok .VALID
        | some jr =>
          if jr.teamConsent && jr.userConsent then .ok .ACCEPTED
          else if jr.teamConsent && !jr.userConsent then .ok .INVITED
          else if !jr.teamConsent && jr.userConsent then .ok .REQUESTED
          else .ok .VALID := by
  have hnot := not_member_any_false hmem
  have h4 : ((db.participants.filter (fun p => p.team == T.tid)).length ≥ 4) =
      False := eq_false (by omega)
  simp only [validateTeamJoinRequest, hnot, Bool.false_eq_true, if_false, h4,
    hteam, join_find_eq_pair_head]

/-- Claim C1: for a non-member joiner of a team below the cap whose own team
in that competition has exactly one member, the validator classifies by the
pair's join request: VALID when none exists, ACCEPTED when both consents are
set, INVITED on team consent only, REQUESTED on user consent only, and VALID
again when a request exists with neither flag set. -/
theorem claim_C1_classify_consent_states (db : DB) (T : Team) (u : Nat)
    (tj : TeamOfUserView)
    (hmem : ∀ p ∈ db.participants, p.team = T.tid → p.user ≠ u)
    (hsmall : (db.participants.filter (fun p => p.team == T.tid)).length < 4)
    (hteam : findTeamOfUser db u T.competition = .ok (some tj))
    (hone : tj.members.length = 1) :
    (pairRequests db T.tid u = [] →
      validateTeamJoinRequest db T u = .ok .VALID)
    ∧ (∀ jr, pairRequests db T.tid u = [jr] →
        jr.teamConsent = true → jr.userConsent = true →
        validateTeamJoinRequest db T u = .ok .ACCEPTED)
    ∧ (∀ jr, pairRequests db T.tid u = [jr] →
        jr.teamConsent = true → jr.userConsent = false →
        validateTeamJoinRequest db T u = .ok .INVITED)
    ∧ (∀ jr, pairRequests db T.tid u = [jr] →
        jr.teamConsent = false → jr.userConsent = true →
        validateTeamJoinRequest db T u = .ok .REQUESTED)
    ∧ (∀ jr, pairRequests db T.tid u = [jr] →
        jr.teamConsent = false → jr.userConsent = false →
        validateTeamJoinRequest db T u = .ok .VALID) := by
  have key := validate_reduces db T u tj hmem hsmall hteam
  have hgt : (tj.members.length > 1) = False := eq_false (by omega)
  simp only [hgt, if_false] at key
  refine ⟨?_, ?_, ?_, ?_, ?_⟩
  · intro hpair
    rw [key, hpair]
    rfl
  · intro jr hpair htc huc
    rw [key, hpair]
    simp [htc, huc]
  · intro jr hpair htc huc
    rw [key, hpair]
    simp [htc, huc]
  · intro jr hpair htc huc
    rw [key, hpair]
    simp [htc, huc]
  · intro jr hpair htc huc
    rw [key, hpair]
    simp [htc, huc]

/-- Witness for C1 at the concrete store `dbA`: user 1 is no member of team
100, the team has one of four seats taken, user 1's own team 101 is solo, no
join request exists between the pair, and the validator answers VALID. -/
theorem claim_C1_witness :
    validateTeamJoinRequest dbA ⟨100, 10⟩ 1 = .ok .VALID :=
  (claim_C1_classify_consent_states dbA ⟨100, 10⟩ 1 tjA
    (by decide) (by decide) (by rfl) (by rfl)).1 rfl

/-- Claim C5: a team whose roster already holds at least four participants
makes the validator answer FULL for every non-member joiner, whatever the
join requests and the joiner's own situation look like. -/
theorem claim_C5_full_cap (db : DB) (T : Team) (u : Nat)
    (hmem : ∀ p ∈ db.participants, p.team = T.tid → p.user ≠ u)
    (hbig : (db.participants.filter (fun p => p.team == T.tid)).length ≥ 4) :
    validateTeamJoinRequest db T u = .ok .FULL := by
  have hnot := not_member_any_false hmem
  have h4 : ((db.participants.filter (fun p => p.team == T.tid)).length ≥ 4) =
      True := eq_true hbig
  simp only [validateTeamJoinRequest, hnot, Bool.false_eq_true, if_false, h4,
    if_true]

/-- Witness for C5 at the concrete store `dbFull`: team 100 already has four
members, an ACCEPTED-grade join request for user 1 is even on file, and yet
the validator answers FULL. -/
theorem claim_C5_witness :
    validateTeamJoinRequest dbFull ⟨100, 10⟩ 1 = .ok .FULL :=
  claim_C5_full_cap dbFull ⟨100, 10⟩ 1 (by decide) (by decide)

/-- Claim C6: for a non-member joiner of a team below the cap, the validator
throws exactly when no entry of the joiner's resolved participations lies in
the inviting team's competition — participant rows whose team or competition
row has been deleted are dropped by `listOwnParticipations` and therefore
count as absent — and the only error it can throw is that authorization
error. -/
theorem claim_C6_missing_participation_error (db : DB) (T : Team) (u : Nat)
    (hmem : ∀ p ∈ db.participants, p.team = T.tid → p.user ≠ u)
    (hsmall : (db.participants.filter (fun p => p.team == T.tid)).length < 4) :
    (validateTeamJoinRequest db T u =
        .error (.convexStr "The user is not in the competition") ↔
      (listOwnParticipations db u).find?
        (fun item => item.competition == T.competition) = none)
    ∧ (∀ e, validateTeamJoinRequest db T u = .error e →
        e = .convexStr "The user is not in the competition") := by
  obtain ⟨r, hr⟩ := findTeamOfUser_isOk db u T.competition
  cases r with
  | none =>
    have hval : validateTeamJoinRequest db T u =
        .error (.convexStr "The user is not in the competition") := by
      have hnot := not_member_any_false hmem
      have h4 : ((db.participants.filter
          (fun p => p.team == T.tid)).length ≥ 4) = False := eq_false (by omega)
      simp only [validateTeamJoinRequest, hnot, Bool.false_eq_true, if_false,
        h4, hr]
    refine ⟨⟨fun _ => ?_, fun _ => hval⟩, fun e he => ?_⟩
    · exact (findTeamOfUser_none_iff db u T.competition).mp hr
    · rw [hval] at he
      exact (Except.error.inj he).symm
  | some tj =>
    have key := validate_reduces db T u tj hmem hsmall hr
    have hnoerr : ∀ e, validateTeamJoinRequest db T u ≠ .error e := by
      intro e
      rw [key]
      by_cases hgt : tj.members.length > 1
      · simp [hgt]
      · simp only [hgt, if_false]
        cases hp : (pairRequests db T.tid u).head? with
        | none => simp
        | some jr =>
          by_cases h1 : jr.teamConsent <;> by_cases h2 : jr.userConsent <;>
            simp [h1, h2]
    refine ⟨⟨fun h => absurd h (hnoerr _), fun h => ?_⟩,
      fun e he => absurd he (hnoerr e)⟩
    exfalso
    have : findTeamOfUser db u T.competition = .ok none :=
      (findTeamOfUser_none_iff db u T.competition).mpr h
    rw [hr] at this
    exact Option.some_ne_none tj (Except.ok.inj this)

/-- Witness for C6 at the concrete store `dbDangling`: user 1's only
participant row points at the deleted team 999, so the row is dropped, user 1
has no resolvable team in competition 10, and the validator throws the
authorization error. -/
theorem claim_C6_witness :
    validateTeamJoinRequest dbDangling ⟨100, 10⟩ 1 =
      .error (.convexStr "The user is not in the competition") :=
  (claim_C6_missing_participation_error dbDangling ⟨100, 10⟩ 1
    (by decide) (by decide)).1.mpr rfl

/-- Claim C9: for a non-member joiner of a team below the cap whose own team
resolves, the validator answers COMMITTED exactly when the joiner's own team
has more than one member, and it does so whatever the `join_requests` table
holds — the COMMITTED decision never consults it. -/
theorem claim_C9_committed (db : DB) (T : Team) (u : Nat) (tj : TeamOfUserView)
    (hmem : ∀ p ∈ db.participants, p.team = T.tid → p.user ≠ u)
    (hsmall : (db.participants.filter (fun p => p.team == T.tid)).length < 4)
    (hteam : findTeamOfUser db u T.competition = .ok (some tj)) :
    ∀ X : List JoinRequest,
      validateTeamJoinRequest { db with join_requests := X } T u =
          .ok .COMMITTED ↔
        tj.members.length > 1 := by
  intro X
  obtain ⟨w2, hw2, hstrip⟩ :=
    findTeamOfUser_transfer db { db with join_requests := X }
      rfl rfl rfl rfl hteam
  have hm : w2.members = tj.members := by
    simp only [stripW, Prod.mk.injEq] at hstrip
    exact hstrip.2.2.1
  have key := validate_reduces { db with join_requests := X } T u w2 hmem
    hsmall hw2
  rw [key, hm]
  by_cases hgt : tj.members.length > 1
  · simp [hgt]
  · simp only [hgt, if_false]
    cases hp : (pairRequests { db with join_requests := X } T.tid u).head? with
    | none => simp [hgt]
    | some jr =>
      by_cases h1 : jr.teamConsent <;> by_cases h2 : jr.userConsent <;>
        simp [h1, h2, hgt]

/-- Witness for C9 at the concrete store `dbC9`: user 1 shares team 101 with
user 3, so the validator answers COMMITTED, and it still does so when an
ACCEPTED-grade join request for the pair is planted into the store. -/
theorem claim_C9_witness :
    validateTeamJoinRequest { dbC9 with join_requests := [] } ⟨100, 10⟩ 1 =
        .ok .COMMITTED
    ∧ validateTeamJoinRequest
        { dbC9 with join_requests := [⟨300, 100, 1, true, true⟩] } ⟨100, 10⟩ 1 =
        .ok .COMMITTED :=
  ⟨(claim_C9_committed dbC9 ⟨100, 10⟩ 1 tjC9 (by decide) (by decide) (by rfl)
      []).mpr (by decide),
   (claim_C9_committed dbC9 ⟨100, 10⟩ 1 tjC9 (by decide) (by decide) (by rfl)
      [⟨300, 100, 1, true, true⟩]).mpr (by decide)⟩

/-- Claim C7: for every caller the Identity Resolver accepts, the Recorder
appends exactly one join request whose `userConsent` is the negation of
`teamConsent`, appends exactly one cross-chat message carrying the pitch as
the thread's opening message, returns the new join request's id, and touches
nothing else in the store. -/
theorem claim_C7_recordJoinRequest_effect (db : DB) (s : Nat)
    (inviterTeamId joinerId : Nat) (pitch : String) (teamConsent : Bool) :
    recordJoinRequest db (some s) inviterTeamId joinerId pitch teamConsent =
      .ok (db.nextId,
        { db with
          join_requests := db.join_requests ++
            [{ jid := db.nextId, team := inviterTeamId, user := joinerId,
               userConsent := !teamConsent, teamConsent := teamConsent }],
          join_messages := db.join_messages ++
            [{ mid := db.nextId + 1, join_request := db.nextId,
               sender := s, message := pitch }],
          nextId := db.nextId + 2 }) := rfl

/-- Claim C10: when the join request's team row no longer exists, the
cross-chat guard does not answer false — it throws the 404 error `verifyTeam`
raises while resolving the team. -/
theorem claim_C10_guard_team_missing (db : DB) (jr : JoinRequest)
    (viewer : Nat) (h : ∀ t ∈ db.teams, t.tid ≠ jr.team) :
    validateCrossChatParticipation db jr viewer =
      .error (.convexCode 404 "The team does not exist") := by
  simp only [validateCrossChatParticipation, verifyTeam_error h]

/-- Witness for C10 at the concrete store `dbW8`: a join request pointing at
the deleted team 999 makes the guard throw 404 even for the joining user
herself. -/
theorem claim_C10_witness :
    validateCrossChatParticipation dbW8 ⟨301, 999, 1, false, true⟩ 1 =
      .error (.convexCode 404 "The team does not exist") :=
  claim_C10_guard_team_missing dbW8 ⟨301, 999, 1, false, true⟩ 1 (by decide)

/-- Claim C8: when the join request's team exists and every participant row
references an existing user document, the cross-chat guard answers true
exactly for current members of that team and for the joining user, and
answers false for everyone else — in particular for a former member whose
participant row is gone. -/
theorem claim_C8_cross_chat_guard (db : DB) (jr : JoinRequest) (viewer : Nat)
    (hex : ∃ t ∈ db.teams, t.tid = jr.team)
    (hWF : ∀ p ∈ db.participants, p.user ∈ db.users) :
    (validateCrossChatParticipation db jr viewer = .ok true ↔
      ((∃ p ∈ db.participants, p.team = jr.team ∧ p.user = viewer) ∨
        jr.user = viewer))
    ∧ (validateCrossChatParticipation db jr viewer = .ok false ↔
      ¬((∃ p ∈ db.participants, p.team = jr.team ∧ p.user = viewer) ∨
        jr.user = viewer)) := by
  obtain ⟨tv, htv⟩ := verifyTeam_isOk_of_mem hex
  obtain ⟨htid, hrow, hmembers⟩ := verifyTeam_ok_spec htv
  have hval : validateCrossChatParticipation db jr viewer =
      .ok (tv.members.any (fun member => member == viewer) ||
        jr.user == viewer) := by
    simp only [validateCrossChatParticipation, htv]
  have hmem_iff : (tv.members.any (fun member => member == viewer) = true) ↔
      (∃ p ∈ db.participants, p.team = jr.team ∧ p.user = viewer) := by
    rw [List.any_eq_true]
    constructor
    · rintro ⟨x, hx, hxe⟩
      obtain rfl : x = viewer := by simpa using hxe
      rw [hmembers, mem_convertToUserDocumentArray] at hx
      simp only [List.mem_map] at hx
      obtain ⟨⟨p, hp, hpu⟩, _⟩ := hx
      rw [List.mem_filter] at hp
      exact ⟨p, hp.1, by simpa using hp.2, hpu⟩
    · rintro ⟨p, hp, hteam, huser⟩
      refine ⟨viewer, ?_, by simp⟩
      rw [hmembers, mem_convertToUserDocumentArray]
      refine ⟨?_, ?_⟩
      · simp only [List.mem_map]
        exact ⟨p, List.mem_filter.mpr ⟨hp, by simp [hteam]⟩, huser⟩
      · rw [← huser]
        exact hWF p hp
  rw [hval]
  by_cases hcase : (∃ p ∈ db.participants, p.team = jr.team ∧ p.user = viewer) ∨
      jr.user = viewer
  · have hb : (tv.members.any (fun member => member == viewer) ||
        jr.user == viewer) = true := by
      rcases hcase with hm | hj
      · rw [Bool.or_eq_true]
        exact Or.inl (hmem_iff.mpr hm)
      · rw [Bool.or_eq_true]
        exact Or.inr (by simp [hj])
    rw [hb]
    exact ⟨by simp [hcase], by simp [hcase]⟩
  · have h1 : tv.members.any (fun member => member == viewer) = false := by
      cases hx : tv.members.any (fun member => member == viewer) with
      | false => rfl
      | true => exact absurd (Or.inl (hmem_iff.mp hx)) hcase
    have h2 : (jr.user == viewer) = false := by
      cases hx : (jr.user == viewer) with
      | false => rfl
      | true => exact absurd (Or.inr (by simpa using hx)) hcase
    rw [h1, h2]
    exact ⟨by simp [hcase], by simp [hcase]⟩

/-- Witness for C8 at the concrete store `dbW8`: for join request 300 of team
100 the guard admits the current member 2 and the joining user 1, and turns
away user 3, who is on no participant row of team 100. -/
theorem claim_C8_witness :
    validateCrossChatParticipation dbW8 jrW8 2 = .ok true
    ∧ validateCrossChatParticipation dbW8 jrW8 1 = .ok true
    ∧ validateCrossChatParticipation dbW8 jrW8 3 = .ok false :=
  ⟨(claim_C8_cross_chat_guard dbW8 jrW8 2 (by decide) (by decide)).1.mpr
      (by decide),
   (claim_C8_cross_chat_guard dbW8 jrW8 1 (by decide) (by decide)).1.mpr
      (by decide),
   (claim_C8_cross_chat_guard dbW8 jrW8 3 (by decide) (by decide)).2.mpr
      (by decide)⟩

/-- `addUserToTeam` is the join-request deletion step followed by the tail. -/
theorem addUserToTeam_decompose (db : DB) (u : Nat) (T : Team) :
    addUserToTeam db u T = addUserToTeamTail (deleteJoinRequestStep db u T) u T := by
  unfold addUserToTeam addUserToTeamTail deleteJoinRequestStep
  cases (db.join_requests.filter (fun j => j.team == T.tid)).find?
      (fun j => j.user == u) <;> rfl

/-- The join-request deletion step touches no table other than
`join_requests`. -/
theorem deleteStep_projections (db : DB) (u : Nat) (T : Team) :
    (deleteJoinRequestStep db u T).users = db.users
    ∧ (deleteJoinRequestStep db u T).competitions = db.competitions
    ∧ (deleteJoinRequestStep db u T).teams = db.teams
    ∧ (deleteJoinRequestStep db u T).participants = db.participants := by
  unfold deleteJoinRequestStep
  cases (db.join_requests.filter (fun j => j.team == T.tid)).find?
      (fun j => j.user == u) <;> exact ⟨rfl, rfl, rfl, rfl⟩

/-- After deleting the join request the mutator's first query found, no join
request remains between the pair — given that at most one stood there. -/
theorem pairRequests_after_delete {db : DB} {T : Team} {u : Nat}
    {jr : JoinRequest}
    (hI3 : (pairRequests db T.tid u).length ≤ 1)
    (hfr : (db.join_requests.filter (fun j => j.team == T.tid)).find?
        (fun j => j.user == u) = some jr) :
    (db.join_requests.filter (fun j => !(j.jid == jr.jid))).filter
      (fun j => j.team == T.tid && j.user == u) = [] := by
  have hh := join_find_eq_pair_head db T.tid u
  rw [hfr] at hh
  have hmem : jr ∈ pairRequests db T.tid u := by
    cases hl : pairRequests db T.tid u with
    | nil => rw [hl] at hh; simp at hh
    | cons a l =>
      rw [hl] at hh
      have : jr = a := by simpa using hh
      rw [this]
      exact List.mem_cons_self a l
  have hsingle := eq_singleton_of_length_le_one hI3 hmem
  rw [List.filter_filter, List.filter_eq_nil_iff]
  intro j hj
  intro hcon
  rw [Bool.and_eq_true] at hcon
  obtain ⟨hpair_j, hnot⟩ := hcon
  have hjmem : j ∈ pairRequests db T.tid u :=
    List.mem_filter.mpr ⟨hj, hpair_j⟩
  rw [hsingle, List.mem_singleton] at hjmem
  subst hjmem
  simp at hnot

/-- Postconditions of the mutator's tail when it completes, phrased against
the original store `db`: the tail was handed a store `db1` that differs from
`db` at most in its `join_requests` table and holds no join request between
the pair. -/
theorem addUserToTeamTail_post (db db1 : DB) (u : Nat) (T : Team) (db2 : DB)
    (hcomp : db1.competitions = db.competitions)
    (husers : db1.users = db.users)
    (hteams : db1.teams = db.teams)
    (hparts : db1.participants = db.participants)
    (hpair1 : pairRequests db1 T.tid u = [])
    (hWF : ∀ p ∈ db.participants, p.user ∈ db.users)
    (hPID : db.participants.Pairwise (fun a b => a.pid ≠ b.pid))
    (hok : addUserToTeamTail db1 u T = .ok db2) :
    AddPost db db2 u T := by
  cases hft : findTeamOfUser db1 u T.competition with
  | error e => simp [addUserToTeamTail, hft] at hok
  | ok o =>
    cases o with
    | none => simp [addUserToTeamTail, hft] at hok
    | some tj =>
      simp only [addUserToTeamTail, hft] at hok
      cases hjp : (db1.participants.filter (fun p => p.team == tj.tid)).find?
          (fun item => item.user == u) with
      | none => simp [hjp] at hok
      | some jp =>
        simp only [hjp] at hok
        have hjpf := List.mem_filter.mp (List.mem_of_find?_eq_some hjp)
        have hjp_mem : jp ∈ db.participants := by
          rw [← hparts]
          exact hjpf.1
        have hjp_user : jp.user = u := by simpa using List.find?_some hjp
        obtain ⟨tj0, hft0, hstrip0⟩ :=
          findTeamOfUser_transfer db1 db hcomp.symm husers.symm hteams.symm
            hparts.symm hft
        have htid0 : tj0.tid = tj.tid := by
          simp only [stripW, Prod.mk.injEq] at hstrip0
          exact hstrip0.1
        obtain ⟨hexist, hmembers, humem, humemu⟩ := findTeamOfUser_some_spec hft
        have hroster : tj.members.length =
            (db.participants.filter (fun p => p.team == tj.tid)).length := by
          rw [hmembers, length_convertToUserDocumentArray]
          · rw [List.length_map, hparts]
          · intro i hi
            simp only [List.mem_map] at hi
            obtain ⟨p, hp, rfl⟩ := hi
            rw [List.mem_filter] at hp
            rw [husers]
            exact hWF p (by rw [← hparts]; exact hp.1)
        have hb_mem : ∃ p ∈ db1.participants.map (fun q =>
            if q.pid == jp.pid then { q with team := T.tid } else q),
            p.user = u ∧ p.team = T.tid := by
          refine ⟨{ jp with team := T.tid },
            List.mem_map.mpr ⟨jp, hjpf.1, by simp⟩, hjp_user, rfl⟩
        have hpres : ∀ p ∈ db.participants, p.user ≠ u →
            p ∈ db1.participants.map (fun q =>
              if q.pid == jp.pid then { q with team := T.tid } else q) := by
          intro p hp hpu
          have hne : p ≠ jp := fun h => hpu (h ▸ hjp_user)
          have hpid : p.pid ≠ jp.pid :=
            (List.Pairwise.forall (fun x y h => Ne.symm h) hPID) hp hjp_mem hne
          have hfp : (fun q =>
              if q.pid == jp.pid then { q with team := T.tid } else q) p = p := by
            have hb : (p.pid == jp.pid) = false := by simpa using hpid
            simp [hb]
          exact List.mem_map.mpr ⟨p, by rw [hparts]; exact hp, hfp⟩
        by_cases hlen : (tj.members.length == 1) = true
        · rw [if_pos hlen, Except.ok.injEq] at hok
          subst hok
          have hlen1 : tj.members.length = 1 := by simpa using hlen
          refine ⟨hpair1, hb_mem, ?_, hpres⟩
          intro w hw
          rw [hft0] at hw
          obtain rfl : tj0 = w := Option.some.inj (Except.ok.inj hw)
          refine iff_of_true ?_ ?_
          · intro t ht
            have ht2 : t ∈ db1.teams.filter (fun t => !(t.tid == tj.tid)) := ht
            rw [List.mem_filter] at ht2
            have : ¬(t.tid == tj.tid) = true := by simpa using ht2.2
            rw [htid0]
            simpa using this
          · rw [htid0, ← hroster]
            exact hlen1
        · rw [if_neg hlen, Except.ok.injEq] at hok
          subst hok
          have hlen1 : tj.members.length ≠ 1 := by simpa using hlen
          refine ⟨hpair1, hb_mem, ?_, hpres⟩
          intro w hw
          rw [hft0] at hw
          obtain rfl : tj0 = w := Option.some.inj (Except.ok.inj hw)
          refine iff_of_false ?_ ?_
          · intro hall
            obtain ⟨t, ht, htt⟩ := hexist
            exact hall t ht (htt.trans htid0.symm)
          · rw [htid0, ← hroster]
            exact hlen1

/-- Shared postcondition lemma: whatever `addUserToTeam` completes on
satisfies `AddPost`, under pair-uniqueness (invariant I3), resolvable
participant users, and distinct participant row ids. -/
theorem addUserToTeam_ok_post (db : DB) (u : Nat) (T : Team) (db2 : DB)
    (hWF : ∀ p ∈ db.participants, p.user ∈ db.users)
    (hI3 : (pairRequests db T.tid u).length ≤ 1)
    (hPID : db.participants.Pairwise (fun a b => a.pid ≠ b.pid))
    (hok : addUserToTeam db u T = .ok db2) :
    AddPost db db2 u T := by
  rw [addUserToTeam_decompose] at hok
  cases hfr : (db.join_requests.filter (fun j => j.team == T.tid)).find?
      (fun j => j.user == u) with
  | none =>
    have hd : deleteJoinRequestStep db u T = db := by
      simp only [deleteJoinRequestStep, hfr]
    rw [hd] at hok
    have hpair : pairRequests db T.tid u = [] := by
      have hh := join_find_eq_pair_head db T.tid u
      rw [hfr] at hh
      cases hl : pairRequests db T.tid u with
      | nil => rfl
      | cons a l => rw [hl] at hh; simp at hh
    exact addUserToTeamTail_post db db u T db2 rfl rfl rfl rfl hpair hWF hPID hok
  | some jr =>
    have hd : deleteJoinRequestStep db u T =
        { db with join_requests :=
            db.join_requests.filter (fun j => !(j.jid == jr.jid)) } := by
      simp only [deleteJoinRequestStep, hfr]
    rw [hd] at hok
    have hpair : pairRequests
        { db with join_requests :=
            db.join_requests.filter (fun j => !(j.jid == jr.jid)) } T.tid u =
        [] := pairRequests_after_delete hI3 hfr
    exact addUserToTeamTail_post db
      { db with join_requests :=
          db.join_requests.filter (fun j => !(j.jid == jr.jid)) }
      u T db2 rfl rfl rfl rfl hpair hWF hPID hok

/-- When the user has no resolvable team in the inviting team's competition,
the mutator throws the authorization error. -/
theorem addUserToTeam_noteam_error (db : DB) (u : Nat) (T : Team)
    (h : findTeamOfUser db u T.competition = .ok none) :
    addUserToTeam db u T =
      .error (.convexStr "The user is not in the competition") := by
  rw [addUserToTeam_decompose]
  obtain ⟨h1, h2, h3, h4⟩ := deleteStep_projections db u T
  have hft := findTeamOfUser_none_transfer db (deleteJoinRequestStep db u T)
    h2 h1 h3 h4 h
  simp only [addUserToTeamTail, hft]

/-- Claim C2: a completed `addUserToTeam(user, invitingTeam)` run leaves no
join request between the pair, points the user's participant row at the
inviting team, and deletes the user's prior team row exactly when that team
had roster size one before the departure, preserving every other user's
participant row.  The hypotheses are the store invariants the spec
guarantees: at most one join request per pair (I3), participant rows
referencing existing users, and distinct participant row ids. -/
theorem claim_C2_addUserToTeam_post (db : DB) (u : Nat) (T : Team) (db2 : DB)
    (hWF : ∀ p ∈ db.participants, p.user ∈ db.users)
    (hI3 : (pairRequests db T.tid u).length ≤ 1)
    (hPID : db.participants.Pairwise (fun a b => a.pid ≠ b.pid))
    (hok : addUserToTeam db u T = .ok db2) :
    AddPost db db2 u T :=
  addUserToTeam_ok_post db u T db2 hWF hI3 hPID hok

/-- Witness for C2 at the concrete store `dbA`: moving user 1 from their solo
team 101 onto team 100 ends in `dbA2`, which satisfies all postconditions. -/
theorem claim_C2_witness : AddPost dbA dbA2 1 ⟨100, 10⟩ :=
  claim_C2_addUserToTeam_post dbA 1 ⟨100, 10⟩ dbA2
    (by decide) (by decide) (by decide) (by rfl)

/-- Claim C3: run as the single transaction the platform gives a mutation,
`addUserToTeam` is atomic — a committing run applies all of its steps (the
`AddPost` postconditions), while a run that throws commits nothing, so the
caller keeps the starting store unchanged and in particular no join request
row is lost; when the user has no team in the inviting team's competition the
run does throw, with the authorization error. -/
theorem claim_C3_addUserToTeam_atomic (db : DB) (u : Nat) (T : Team)
    (hWF : ∀ p ∈ db.participants, p.user ∈ db.users)
    (hI3 : (pairRequests db T.tid u).length ≤ 1)
    (hPID : db.participants.Pairwise (fun a b => a.pid ≠ b.pid)) :
    ((runMutation (fun d => addUserToTeam d u T) db).2 = none →
      addUserToTeam db u T =
          .ok (runMutation (fun d => addUserToTeam d u T) db).1
        ∧ AddPost db (runMutation (fun d => addUserToTeam d u T) db).1 u T)
    ∧ (∀ e, (runMutation (fun d => addUserToTeam d u T) db).2 = some e →
        (runMutation (fun d => addUserToTeam d u T) db).1 = db)
    ∧ (findTeamOfUser db u T.competition = .ok none →
        (runMutation (fun d => addUserToTeam d u T) db).2 =
          some (.convexStr "The user is not in the competition")) := by
  cases hrun : addUserToTeam db u T with
  | ok dbr =>
    have hm : runMutation (fun d => addUserToTeam d u T) db = (dbr, none) := by
      simp [runMutation, hrun]
    rw [hm]
    refine ⟨fun _ => ⟨rfl, addUserToTeam_ok_post db u T dbr hWF hI3 hPID hrun⟩,
      fun e he => by simp at he, fun hnone => ?_⟩
    have hcontra := addUserToTeam_noteam_error db u T hnone
    rw [hrun] at hcontra
    simp at hcontra
  | error e0 =>
    have hm : runMutation (fun d => addUserToTeam d u T) db = (db, some e0) := by
      simp [runMutation, hrun]
    rw [hm]
    refine ⟨fun h => by simp at h, fun e he => rfl, fun hnone => ?_⟩
    have herr := addUserToTeam_noteam_error db u T hnone
    rw [hrun] at herr
    have he0 : e0 = .convexStr "The user is not in the competition" :=
      Except.error.inj herr
    simp [he0]

/-- Witness for C3 at the concrete store `dbW3`: user 5 has no participant
row at all while a fully consented join request 300 between team 100 and user
5 is on file; the run throws the authorization error and the caller keeps
`dbW3` — join request 300 included — unchanged. -/
theorem claim_C3_witness :
    (runMutation (fun d => addUserToTeam d 5 ⟨100, 10⟩) dbW3).1 = dbW3
    ∧ (runMutation (fun d => addUserToTeam d 5 ⟨100, 10⟩) dbW3).2 =
        some (.convexStr "The user is not in the competition") := by
  have h := claim_C3_addUserToTeam_atomic dbW3 5 ⟨100, 10⟩
    (by decide) (by decide) (by decide)
  have h3 := h.2.2 (by rfl)
  exact ⟨h.2.1 _ h3, h3⟩

/-- Counterexample to claim C4, at the concrete section-8 store `dbC4`
(team 100 invited user 1: row 300 has `teamConsent = true`,
`userConsent = false`, so classify says INVITED): the user-side Recorder call
does not set the existing row's `userConsent` — it creates a second join
request row for the pair, row 300 keeps `userConsent = false`, two rows now
stand between the pair, and classify still answers INVITED rather than
ACCEPTED because the earlier row is found first. -/
theorem claim_C4_counterexample :
    validateTeamJoinRequest dbC4 ⟨100, 10⟩ 1 = .ok .INVITED
    ∧ recordJoinRequest dbC4 (some 1) 100 1 "may I join" false =
        .ok (400, dbC4b)
    ∧ (pairRequests dbC4b 100 1).length = 2
    ∧ (∃ j ∈ dbC4b.join_requests, j.jid = 300 ∧ j.userConsent = false)
    ∧ validateTeamJoinRequest dbC4b ⟨100, 10⟩ 1 = .ok .INVITED := by
  refine ⟨by rfl, by rfl, by rfl, ?_, by rfl⟩
  exact ⟨⟨300, 100, 1, false, true⟩, by decide, rfl, rfl⟩

/-- Amended C4: the Recorder invoked from the user side never updates an
existing join request row — it appends one new row for the pair with
`userConsent = true` and `teamConsent = false`, leaving every join request
already standing between the pair in place ahead of it; keeping invariant I3
(at most one row per pair) is therefore the caller's duty, per the spec's own
section 4.2. -/
theorem claim_C4_amended (db : DB) (s : Nat) (teamId userId : Nat)
    (pitch : String) :
    (recordJoinRequest db (some s) teamId userId pitch false).map
        (fun r => pairRequests r.2 teamId userId) =
      .ok (pairRequests db teamId userId ++
        [{ jid := db.nextId, team := teamId, user := userId,
           userConsent := true, teamConsent := false }]) := by
  simp [recordJoinRequest, verifyUser, pairRequests, Except.map,
    List.filter_append]

end VRA
